import Mathlib

/-!
Shallow embedding of the crawl control and resilience layer of
`src/parser.py` (class `ZootovaryParser`), together with theorems about
its deduplication store, fetch retry loop, pagination walker, politeness
delay, category traversal and run supervisor.

Python `dict.get` on a possibly-missing string field is modelled as
`Option String`; Python truthiness of such a value (non-`None` and
non-empty) is the `truthy` predicate below.  Machine integers play no
role: page numbers and retry counts are small Python `int`s, modelled as
`Int`/`Nat`.
-/

set_option autoImplicit false

namespace Zootovary

/-- Python truthiness of an optional string: `None` and `""` are falsy,
every other string is truthy. -/
def truthy : Option String → Bool
  | none => false
  | some s => !s.isEmpty

/-! ### Deduplication store

The source keeps `self.results : List[dict]`.  A record carries the two
identity fields read by `_need_to_append_results` (`sku_article`,
`sku_barcode`) plus representative payload fields; payload fields take no
part in the dedup decision, exactly as in the source. -/

structure Record where
  sku_article : Option String
  sku_barcode : Option String
  sku_name : String
  price : Option String
  deriving DecidableEq

/-- Condition tested inside the loop of `_need_to_append_results`
(parser.py lines 230-233): an existing record `r` matches the offered
record `new` when the articles compare equal, the offered article is
truthy, the barcodes compare equal and the offered barcode is truthy. -/
def matchesIdent (r new : Record) : Bool :=
  r.sku_article == new.sku_article && truthy new.sku_article &&
    r.sku_barcode == new.sku_barcode && truthy new.sku_barcode

/-- Embedding of `_need_to_append_results` (parser.py lines 222-234):
scan all previously accepted records; return `false` as soon as one
matches, `true` otherwise. -/
def need_to_append (results : List Record) (new : Record) : Bool :=
  !(results.any fun r => matchesIdent r new)

/-- Embedding of the accumulation step at the end of `get_item_data`
(parser.py lines 479-482): append the record iff `need_to_append`. -/
def offer (results : List Record) (new : Record) : List Record :=
  if need_to_append results new then results ++ [new] else results

/-- Offering a whole sequence of extracted records, one at a time. -/
def offerAll (store : List Record) (recs : List Record) : List Record :=
  recs.foldl offer store

/-- A record is fully identified when both identity fields are truthy. -/
def fullIdent (r : Record) : Bool :=
  truthy r.sku_article && truthy r.sku_barcode

/-- The at-most-one-copy invariant: among the fully identified records of
the store, the (article, barcode) pairs are pairwise distinct. -/
def identDistinct (store : List Record) : Prop :=
  (store.filter fullIdent).Pairwise
    fun a b => ¬(a.sku_article = b.sku_article ∧ a.sku_barcode = b.sku_barcode)

/-! ### Fetcher

`_get_source` (parser.py lines 149-174) loops `while max_retries > 0`,
issuing one `requests.get` per iteration.  A transport outcome is either
a raised request exception or a response with a status code and body; the
`requests` library defines `response.ok` as `status_code < 400`, and the
source accepts a response only when `response.ok and
response.status_code == 200`. -/

inductive TransportResult where
  | exn
  | response (status : Nat) (text : String)
  deriving DecidableEq

/-- Whether `_get_source` would accept this transport outcome
(`response.ok and response.status_code == 200`). -/
def accepted : TransportResult → Bool
  | .exn => false
  | .response status _ => decide (status < 400) && status == 200

/-- Retry loop of `_get_source`: `fuel` is the remaining value of the
`max_retries` local, `attempts` the number of requests issued so far.
Returns the body (or `none` on exhaustion, the implicit `return None` of
the Python function) together with the total number of attempts made. -/
def getSourceLoop (transport : Nat → TransportResult) :
    Nat → Nat → Option String × Nat
  | 0, attempts => (none, attempts)
  | fuel + 1, attempts =>
    match transport attempts with
    | .exn => getSourceLoop transport fuel (attempts + 1)
    | .response status text =>
      if decide (status < 400) && status == 200 then (some text, attempts + 1)
      else getSourceLoop transport fuel (attempts + 1)

/-- Embedding of `_get_source` without the development-only `path`
branch: run the retry loop with the configured `max_retries` (a Python
`int`; `while max_retries > 0` makes a non-positive value yield zero
iterations). -/
def get_source (max_retries : Int) (transport : Nat → TransportResult) :
    Option String × Nat :=
  getSourceLoop transport max_retries.toNat 0

/-! ### Configuration preparation -/

/-- Embedding of the `max_retries` defaulting in `_prepare_to_work`
(parser.py lines 60-64): `if not max_retries: max_retries = 1`.  A
missing key gives `None` (falsy); for an `int`, `not v` holds exactly
when `v == 0`. -/
def prepare_max_retries (configured : Option Int) : Int :=
  match configured with
  | none => 1
  | some v => if v = 0 then 1 else v

/-! ### Politeness delay

`_make_delay` (parser.py lines 176-192) reads `delay_range_s` from the
configuration: the literal `0` returns immediately, an absent value uses
the default window `[1, 3]`, and otherwise the value unpacks into
`[min, max]`.  The call `random.uniform(a, b)` is modelled by an
arbitrary `draw` function; the theorems assume only its documented bound
`a ≤ draw a b ≤ b` for `a ≤ b`.  The result is `none` when no sleep
happens and `some d` when the code sleeps for `d` seconds. -/

inductive DelayConfig where
  | zero
  | absent
  | range (lo hi : ℚ)

/-- Embedding of `_make_delay`. -/
def make_delay (cfg : DelayConfig) (draw : ℚ → ℚ → ℚ) : Option ℚ :=
  match cfg with
  | .zero => none
  | .absent => some (draw 1 3)
  | .range lo hi => some (draw lo hi)

/-! ### Pagination walker

`get_items` (parser.py lines 297-333) fetches page 1 of a category with
no request parameter, extracts its items, looks for the last link of the
navigation block (`AttributeError` when absent), parses its trailing
`PAGEN_1=` value as an integer (`ValueError`/`AttributeError` when not
parseable), and then fetches pages `range(2, last + 1)` with the
`PAGEN_1` parameter, skipping (not aborting on) pages whose fetch fails.
`_extract_items` (lines 280-295) fetches each item on a page and calls
`_make_delay()` once after each item.

The environment `env` maps a request parameter (`none` for page 1,
`some p` for `PAGEN_1 = p`) to the fetched document, or `none` when
`_get_source` exhausts its retries.  The observable behaviour is the
trace of fetches and delays. -/

inductive NavResult where
  | noNav
  | unparseable
  | lastPage (n : Int)
  deriving DecidableEq

structure PageDoc where
  items : List String
  nav : NavResult
  deriving DecidableEq

inductive Ev where
  | pageFetch (pagen : Option Int)
  | itemFetch (url : String)
  | delay
  deriving DecidableEq

/-- Embedding of `_extract_items`: for each item on the page, fetch its
detail page and then make exactly one politeness delay. -/
def extract_items (items : List String) : List Ev :=
  items.flatMap fun u => [Ev.itemFetch u, Ev.delay]

/-- The page numbers produced by `range(2, n + 1)`. -/
def pagesFrom2 (n : Int) : List Int :=
  (List.range (n - 1).toNat).map fun i : Nat => (i : Int) + 2

/-- Loop body of `get_items` for one page number past the first: fetch
the page with the `PAGEN_1` parameter; on no source log and `continue`,
otherwise extract its items. -/
def pageVisit (env : Option Int → Option PageDoc) (p : Int) : List Ev :=
  Ev.pageFetch (some p) ::
    match env (some p) with
    | none => []
    | some d => extract_items d.items

/-- Embedding of `get_items`: the trace of page fetches, item fetches
and delays produced for one category. -/
def get_items (env : Option Int → Option PageDoc) : List Ev :=
  match env none with
  | none => [Ev.pageFetch none]
  | some doc =>
    Ev.pageFetch none :: (extract_items doc.items ++
      match doc.nav with
      | .noNav => []
      | .unparseable => []
      | .lastPage n => (pagesFrom2 n).flatMap (pageVisit env))

/-- Request parameters of the page fetches of a trace, in order. -/
def pageParams (evs : List Ev) : List (Option Int) :=
  evs.filterMap fun e =>
    match e with
    | .pageFetch p => some p
    | _ => none

/-- Number of politeness delays in a trace. -/
def countDelays (evs : List Ev) : Nat :=
  evs.countP fun e => e == Ev.delay

/-- Number of item fetches in a trace. -/
def countItemFetches (evs : List Ev) : Nat :=
  evs.countP fun e =>
    match e with
    | .itemFetch _ => true
    | _ => false

/-! ### Category discovery and traversal

`parse_cats` (parser.py lines 236-278) fetches the root document; with
no source it logs a warning and falls through to `return`, i.e. returns
`None`.  Otherwise it walks the two-level catalog menu: for each main
category it appends a record with `parent_id = None`, then one record
per sub-category with `parent_id` set to the main category's id.  Ids
come from the link via `link.split('/catalog')[-1][1:-1]`.

`_start_parser` (lines 194-220) in discovery mode iterates the value
returned by `parse_cats()`; in Python, iterating `None` raises
`TypeError`.  For each category it visits those with a truthy
`parent_id`, building the URL `domain + link`. -/

structure SubCatNode where
  name : String
  link : String
  deriving DecidableEq

structure MainCatNode where
  name : String
  link : String
  subs : List SubCatNode
  deriving DecidableEq

structure Cat where
  name : String
  id : String
  parent_id : Option String
  link : String
  deriving DecidableEq

def domain : String := "https://zootovary.ru"

/-- Strip `p` from the front of `l`, or fail. -/
def dropPrefixChars : List Char → List Char → Option (List Char)
  | [], l => some l
  | _ :: _, [] => none
  | p :: ps, c :: cs => if p = c then dropPrefixChars ps cs else none

/-- Scan for the last piece of Python `s.split(sep)`: pieces are
delimited by non-overlapping occurrences of `sep` found left to right;
the last piece is whatever follows the final occurrence (the whole
string when there is none).  `fuel` bounds the recursion; every step
consumes at least one character (for a non-empty `sep`), so an initial
fuel of the string length plus one suffices. -/
def lastPieceAux (sep : List Char) : Nat → List Char → List Char → List Char
  | 0, acc, _ => acc.reverse
  | _ + 1, acc, [] => acc.reverse
  | fuel + 1, acc, c :: cs =>
    match dropPrefixChars sep (c :: cs) with
    | some rest => lastPieceAux sep fuel [] rest
    | none => lastPieceAux sep fuel (c :: acc) cs

/-- Python `s.split(sep)[-1]`. -/
def lastSplitPiece (sep s : String) : String :=
  String.mk (lastPieceAux sep.data (s.data.length + 1) [] s.data)

/-- Embedding of `link.split('/catalog')[-1][1:-1]`: the last piece of
the split, with its first and last characters removed. -/
def extractId (link : String) : String :=
  String.mk (((lastSplitPiece "/catalog" link).data.drop 1).dropLast)

/-- Embedding of `parse_cats`: `source` is the outcome of fetching and
parsing the root catalog menu (`none` when `_get_source` returned no
source, in which case the function returns `None`). -/
def parse_cats (source : Option (List MainCatNode)) : Option (List Cat) :=
  match source with
  | none => none
  | some menu =>
    some <| menu.flatMap fun m =>
      let mid := extractId m.link
      { name := m.name, id := mid, parent_id := none, link := m.link } ::
        m.subs.map fun s =>
          { name := s.name, id := extractId s.link, parent_id := some mid,
            link := s.link }

inductive PyError where
  | typeError
  deriving DecidableEq

/-- Embedding of the discovery branch of `_start_parser` (lines
198-211): the list of category URLs handed to `get_items`, or the
Python exception the branch raises.  When `parse_cats` returns `None`,
the statement `for category in categories` raises `TypeError`
(`NoneType` is not iterable); otherwise the loop visits exactly the
categories whose `parent_id` is truthy. -/
def start_parser_discovery (source : Option (List MainCatNode)) :
    Except PyError (List String) :=
  match parse_cats source with
  | none => .error .typeError
  | some cats =>
    .ok <| (cats.filter fun c => truthy c.parent_id).map fun c =>
      domain ++ c.link

/-! ### Run supervisor

`start_parser_run` (parser.py lines 484-505) runs
`for try_count in range(1, restart_count + 1)`: each iteration attempts
one full traversal; on success it breaks, on an exception it breaks when
`try_count == restart_count` and otherwise sleeps `interval_m * 60`
seconds and retries.  `throws t` tells whether attempt `t` raises; the
observable behaviour is the trace of attempts and sleeps.  The loop is
also embedded a second time threading the `self.results` store, which is
created once in `__init__` and never cleared between attempts. -/

inductive RunEv where
  | attempt (tryCount : Nat)
  | sleep (seconds : ℚ)
  deriving DecidableEq

/-- Trace of the supervisor loop: `tryCount` is the current value of the
loop variable, `remaining + 1` the number of loop iterations left
(`remaining = 0` exactly when `try_count == restart_count`). -/
def runLoop (throws : Nat → Bool) (intervalS : ℚ) :
    Nat → Nat → List RunEv
  | _, 0 => []
  | tryCount, remaining + 1 =>
    RunEv.attempt tryCount ::
      if !(throws tryCount) then []
      else if remaining = 0 then []
      else RunEv.sleep intervalS :: runLoop throws intervalS (tryCount + 1) remaining

/-- Embedding of `start_parser_run`: attempts are numbered from 1 and the
cooldown is `interval_m * 60` seconds. -/
def start_parser_run (throws : Nat → Bool) (restartCount : Nat)
    (intervalM : ℚ) : List RunEv :=
  runLoop throws (intervalM * 60) 1 restartCount

/-- Supervisor loop threading the record store: attempt `t` offers the
records `(outcome t).1` one at a time (the records extracted before the
attempt either completes or raises) and `(outcome t).2` tells whether it
then raises. -/
def runLoopStore (outcome : Nat → List Record × Bool) :
    Nat → Nat → List Record → List Record
  | _, 0, store => store
  | tryCount, remaining + 1, store =>
    if !(outcome tryCount).2 then offerAll store (outcome tryCount).1
    else if remaining = 0 then offerAll store (outcome tryCount).1
    else runLoopStore outcome (tryCount + 1) remaining
      (offerAll store (outcome tryCount).1)

/-- The final store of a full supervised run, starting from the empty
`self.results` created in `__init__`. -/
def start_parser_store (outcome : Nat → List Record × Bool)
    (restartCount : Nat) : List Record :=
  runLoopStore outcome 1 restartCount []

/-! ## Lemmas about the deduplication store -/

theorem matchesIdent_eq_true_iff (r new : Record) :
    matchesIdent r new = true ↔
      (r.sku_article = new.sku_article ∧ truthy new.sku_article = true ∧
        r.sku_barcode = new.sku_barcode ∧ truthy new.sku_barcode = true) := by
  simp [matchesIdent, and_assoc]

theorem need_to_append_eq_false_iff (results : List Record) (new : Record) :
    need_to_append results new = false ↔
      ∃ r ∈ results, matchesIdent r new = true := by
  simp [need_to_append, List.any_eq_true]

theorem need_to_append_eq_true_iff (results : List Record) (new : Record) :
    need_to_append results new = true ↔
      ∀ r ∈ results, matchesIdent r new = false := by
  simp [need_to_append, List.any_eq_false]

theorem offer_of_need (results : List Record) (new : Record)
    (h : need_to_append results new = true) :
    offer results new = results ++ [new] := by
  simp [offer, h]

theorem offer_of_not_need (results : List Record) (new : Record)
    (h : need_to_append results new = false) :
    offer results new = results := by
  simp [offer, h]

theorem offer_eq_of_mem {store : List Record} {r new : Record} (hr : r ∈ store)
    (h1 : r.sku_article = new.sku_article) (h2 : truthy new.sku_article = true)
    (h3 : r.sku_barcode = new.sku_barcode) (h4 : truthy new.sku_barcode = true) :
    offer store new = store := by
  refine offer_of_not_need store new ?_
  exact (need_to_append_eq_false_iff store new).mpr
    ⟨r, hr, (matchesIdent_eq_true_iff r new).mpr ⟨h1, h2, h3, h4⟩⟩

theorem identDistinct_nil : identDistinct [] := by
  simp [identDistinct]

theorem identDistinct_offer {store : List Record} (new : Record)
    (h : identDistinct store) : identDistinct (offer store new) := by
  by_cases hn : need_to_append store new = true
  · rw [offer_of_need store new hn]
    unfold identDistinct at h ⊢
    rw [List.filter_append]
    by_cases hf : fullIdent new = true
    · rw [List.pairwise_append]
      refine ⟨h, by simp [hf], ?_⟩
      intro a ha b hb
      simp only [List.filter_cons, hf, if_pos, List.filter_nil,
        List.mem_singleton] at hb
      rw [hb]
      rw [List.mem_filter] at ha
      have hm : matchesIdent a new = false :=
        (need_to_append_eq_true_iff store new).mp hn a ha.1
      have hfa : truthy new.sku_article = true ∧ truthy new.sku_barcode = true := by
        simpa [fullIdent] using hf
      intro hcon
      have : matchesIdent a new = true :=
        (matchesIdent_eq_true_iff a new).mpr ⟨hcon.1, hfa.1, hcon.2, hfa.2⟩
      simp [hm] at this
    · simpa [List.filter_cons, hf] using h
  · rw [offer_of_not_need store new (by simpa using hn)]
    exact h

theorem identDistinct_offerAll {store : List Record} (recs : List Record)
    (h : identDistinct store) : identDistinct (offerAll store recs) := by
  induction recs generalizing store with
  | nil => exact h
  | cons r rs ih => exact ih (identDistinct_offer r h)

theorem prefix_offer (store : List Record) (new : Record) :
    store <+: offer store new := by
  unfold offer
  split
  · exact ⟨[new], rfl⟩
  · exact List.prefix_rfl

theorem prefix_offerAll (store recs : List Record) :
    store <+: offerAll store recs := by
  induction recs generalizing store with
  | nil => exact List.prefix_rfl
  | cons r rs ih => exact (prefix_offer store r).trans (ih (offer store r))

theorem prefix_runLoopStore (outcome : Nat → List Record × Bool)
    (tryCount remaining : Nat) (store : List Record) :
    store <+: runLoopStore outcome tryCount remaining store := by
  induction remaining generalizing tryCount store with
  | zero => exact List.prefix_rfl
  | succ r ih =>
    unfold runLoopStore
    split
    · exact prefix_offerAll _ _
    · split
      · exact prefix_offerAll _ _
      · exact (prefix_offerAll _ _).trans (ih _ _)

theorem identDistinct_runLoopStore (outcome : Nat → List Record × Bool)
    (tryCount remaining : Nat) {store : List Record} (h : identDistinct store) :
    identDistinct (runLoopStore outcome tryCount remaining store) := by
  induction remaining generalizing tryCount store with
  | zero => exact h
  | succ r ih =>
    unfold runLoopStore
    split
    · exact identDistinct_offerAll _ h
    · split
      · exact identDistinct_offerAll _ h
      · exact ih _ (identDistinct_offerAll _ h)

/-! ## Claim theorems about the deduplication store -/

/-- Claim C2: the deduplication check rejects an offered record (returns
`false`, record not appended) iff some previously accepted record has
the same non-empty article code and the same non-empty barcode as the
offered record; offering the same fully identified record twice yields
store size 1; and the (article, barcode) pairs of fully identified
accepted records are pairwise distinct in any store built from offers. -/
theorem dedup_policy_spec :
    (∀ (results : List Record) (new : Record),
        need_to_append results new = false ↔
          ∃ r ∈ results,
            r.sku_article = new.sku_article ∧ r.sku_barcode = new.sku_barcode ∧
              truthy r.sku_article = true ∧ truthy r.sku_barcode = true ∧
                truthy new.sku_article = true ∧ truthy new.sku_barcode = true)
    ∧ (∀ (results : List Record) (new : Record),
        need_to_append results new = false → offer results new = results)
    ∧ (∀ new : Record, truthy new.sku_article = true →
        truthy new.sku_barcode = true → offerAll [] [new, new] = [new])
    ∧ (∀ offered : List Record, identDistinct (offerAll [] offered)) := by
  refine ⟨?_, ?_, ?_, ?_⟩
  · intro results new
    rw [need_to_append_eq_false_iff]
    constructor
    · rintro ⟨r, hr, hm⟩
      rw [matchesIdent_eq_true_iff] at hm
      exact ⟨r, hr, hm.1, hm.2.2.1, hm.1 ▸ hm.2.1, hm.2.2.1 ▸ hm.2.2.2,
        hm.2.1, hm.2.2.2⟩
    · rintro ⟨r, hr, h1, h2, _, _, h5, h6⟩
      exact ⟨r, hr, (matchesIdent_eq_true_iff r new).mpr ⟨h1, h5, h2, h6⟩⟩
  · exact offer_of_not_need
  · intro new ha hb
    have h1 : offer [] new = [new] :=
      offer_of_need [] new (by simp [need_to_append])
    have h2 : offer [new] new = [new] :=
      offer_eq_of_mem (List.mem_singleton.mpr rfl) rfl ha rfl hb
    simp [offerAll, List.foldl, h1, h2]
  · intro offered
    exact identDistinct_offerAll offered identDistinct_nil

def recC2 : Record := ⟨some "A1", some "B1", "Item one", some "100"⟩

/-- Witness for C2: offering the concrete fully identified record
`recC2` twice yields a store of size one. -/
theorem dedup_policy_spec_witness : offerAll [] [recC2, recC2] = [recC2] :=
  dedup_policy_spec.2.2.1 recC2 (by decide) (by decide)

/-- Claim C7: two records that both have an empty or absent article
code, or both an empty or absent barcode, are never matched as
duplicates of each other, and every offered record with an empty or
absent identity field is appended to the store, whatever the store
holds. -/
theorem identity_blind_spec :
    (∀ r new : Record,
        (truthy r.sku_article = false ∧ truthy new.sku_article = false) ∨
          (truthy r.sku_barcode = false ∧ truthy new.sku_barcode = false) →
        matchesIdent r new = false)
    ∧ (∀ (results : List Record) (new : Record),
        truthy new.sku_article = false ∨ truthy new.sku_barcode = false →
        offer results new = results ++ [new]) := by
  constructor
  · intro r new h
    rcases h with ⟨_, ha⟩ | ⟨_, hb⟩
    · simp [matchesIdent, ha]
    · simp [matchesIdent, hb]
  · intro results new h
    refine offer_of_need results new ?_
    rw [need_to_append_eq_true_iff]
    intro r hr
    rcases h with ha | hb
    · simp [matchesIdent, ha]
    · simp [matchesIdent, hb]

def recC7 : Record := ⟨none, some "B9", "Same name", some "5"⟩

/-- Witness for C7: the record `recC7` has no article code, so offering
it twice appends it twice even though all fields coincide. -/
theorem identity_blind_spec_witness :
    offer [recC7] recC7 = [recC7, recC7] :=
  identity_blind_spec.2 [recC7] recC7 (Or.inl (by decide))

/-- Claim C6: the store only grows across supervisor attempts (whatever
was accumulated before any point of the supervised run is a prefix of
every later store, in particular of the final output), re-offering a
record whose non-empty identity pair is already present leaves the
store unchanged, and the final store of a supervised run has pairwise
distinct identity pairs among its fully identified records. -/
theorem state_survival_spec :
    (∀ (outcome : Nat → List Record × Bool) (tryCount remaining : Nat)
        (store : List Record),
        store <+: runLoopStore outcome tryCount remaining store)
    ∧ (∀ (store : List Record) (r new : Record), r ∈ store →
        r.sku_article = new.sku_article → truthy new.sku_article = true →
        r.sku_barcode = new.sku_barcode → truthy new.sku_barcode = true →
        offer store new = store)
    ∧ (∀ (outcome : Nat → List Record × Bool) (restartCount : Nat),
        identDistinct (start_parser_store outcome restartCount)) := by
  refine ⟨prefix_runLoopStore, ?_, ?_⟩
  · intro store r new hr h1 h2 h3 h4
    exact offer_eq_of_mem hr h1 h2 h3 h4
  · intro outcome restartCount
    exact identDistinct_runLoopStore outcome 1 restartCount identDistinct_nil

def recC6 : Record := ⟨some "A2", some "B2", "Item two", some "10"⟩

def recC6' : Record := ⟨some "A2", some "B2", "Item two", some "12"⟩

/-- Witness for C6: re-offering a record carrying the identity pair of
`recC6` (with a different payload, as after a re-fetch) leaves the
store unchanged. -/
theorem state_survival_spec_witness : offer [recC6] recC6' = [recC6] :=
  state_survival_spec.2.1 [recC6] recC6 recC6' (by decide) rfl (by decide)
    rfl (by decide)

/-! ## Lemmas about the fetcher -/

theorem getSourceLoop_succ (transport : Nat → TransportResult)
    (f attempts : Nat) :
    getSourceLoop transport (f + 1) attempts =
      match transport attempts with
      | .exn => getSourceLoop transport f (attempts + 1)
      | .response status text =>
        if decide (status < 400) && status == 200 then (some text, attempts + 1)
        else getSourceLoop transport f (attempts + 1) := rfl

theorem getSourceLoop_succ_exn {transport : Nat → TransportResult}
    {f attempts : Nat} (h : transport attempts = TransportResult.exn) :
    getSourceLoop transport (f + 1) attempts =
      getSourceLoop transport f (attempts + 1) := by
  rw [getSourceLoop_succ, h]

theorem getSourceLoop_succ_response {transport : Nat → TransportResult}
    {f attempts status : Nat} {text : String}
    (h : transport attempts = TransportResult.response status text) :
    getSourceLoop transport (f + 1) attempts =
      if (decide (status < 400) && status == 200) = true then
        (some text, attempts + 1)
      else getSourceLoop transport f (attempts + 1) := by
  rw [getSourceLoop_succ, h]

theorem getSourceLoop_of_failing (transport : Nat → TransportResult)
    (hfail : ∀ k, accepted (transport k) = false) :
    ∀ fuel attempts,
      getSourceLoop transport fuel attempts = (none, attempts + fuel) := by
  intro fuel
  induction fuel with
  | zero => intro attempts; rfl
  | succ f ih =>
    intro attempts
    cases htr : transport attempts with
    | exn =>
      rw [getSourceLoop_succ_exn htr, ih (attempts + 1)]
      have e : attempts + 1 + f = attempts + (f + 1) := by omega
      rw [e]
    | response status text =>
      have hb : (decide (status < 400) && status == 200) = false := by
        have h := hfail attempts
        rw [htr] at h
        simpa [accepted] using h
      rw [getSourceLoop_succ_response htr, if_neg (by simp [hb]),
        ih (attempts + 1)]
      have e : attempts + 1 + f = attempts + (f + 1) := by omega
      rw [e]

theorem getSourceLoop_some (transport : Nat → TransportResult) :
    ∀ fuel attempts text,
      (getSourceLoop transport fuel attempts).1 = some text →
      ∃ k, transport k = TransportResult.response 200 text := by
  intro fuel
  induction fuel with
  | zero => intro attempts text h; simp [getSourceLoop] at h
  | succ f ih =>
    intro attempts text h
    cases htr : transport attempts with
    | exn =>
      rw [getSourceLoop_succ_exn htr] at h
      exact ih _ _ h
    | response status body =>
      rw [getSourceLoop_succ_response htr] at h
      by_cases hc : (decide (status < 400) && status == 200) = true
      · rw [if_pos hc] at h
        simp only [Bool.and_eq_true, decide_eq_true_eq, beq_iff_eq] at hc
        have hbody : body = text := by simpa using h
        exact ⟨attempts, by rw [htr, hc.2, hbody]⟩
      · rw [if_neg hc] at h
        exact ih _ _ h

theorem getSourceLoop_attempts_ge (transport : Nat → TransportResult) :
    ∀ fuel attempts, attempts ≤ (getSourceLoop transport fuel attempts).2 := by
  intro fuel
  induction fuel with
  | zero => intro a; exact le_refl a
  | succ f ih =>
    intro a
    cases htr : transport a with
    | exn =>
      rw [getSourceLoop_succ_exn htr]
      exact le_trans (Nat.le_succ a) (ih (a + 1))
    | response s t =>
      rw [getSourceLoop_succ_response htr]
      split
      · exact Nat.le_succ a
      · exact le_trans (Nat.le_succ a) (ih (a + 1))

theorem get_source_attempts_pos (mr : Int) (hmr : 1 ≤ mr)
    (transport : Nat → TransportResult) :
    1 ≤ (get_source mr transport).2 := by
  unfold get_source
  have h : mr.toNat = (mr.toNat - 1) + 1 := by omega
  rw [h]
  cases htr : transport 0 with
  | exn =>
    rw [getSourceLoop_succ_exn htr]
    exact getSourceLoop_attempts_ge transport (mr.toNat - 1) 1
  | response s t =>
    rw [getSourceLoop_succ_response htr]
    split
    · exact le_refl 1
    · exact getSourceLoop_attempts_ge transport (mr.toNat - 1) 1

theorem get_source_nonpos (mr : Int) (hmr : mr ≤ 0)
    (transport : Nat → TransportResult) :
    get_source mr transport = (none, 0) := by
  unfold get_source
  have h : mr.toNat = 0 := by omega
  rw [h]
  rfl

/-! ## Claim theorems about the fetcher and its configuration -/

/-- Claim C4: against a transport whose every outcome is rejected (an
exception or a response that is not an accepted 200), a fetch with
`max_retries = 3` makes exactly 3 attempts and returns no content; and
content is returned only when some attempt produced a status-200
response with that content, a first-attempt 200 being returned at once
after one attempt. -/
theorem retry_exhaustion_spec :
    (∀ transport : Nat → TransportResult,
        (∀ k, accepted (transport k) = false) →
        get_source 3 transport = (none, 3))
    ∧ (∀ (mr : Int) (transport : Nat → TransportResult) (text : String),
        (get_source mr transport).1 = some text →
        ∃ k, transport k = TransportResult.response 200 text)
    ∧ (∀ (mr : Int) (transport : Nat → TransportResult) (text : String),
        1 ≤ mr → transport 0 = TransportResult.response 200 text →
        get_source mr transport = (some text, 1)) := by
  refine ⟨?_, ?_, ?_⟩
  · intro transport hfail
    unfold get_source
    rw [getSourceLoop_of_failing transport hfail]
    rfl
  · intro mr transport text h
    exact getSourceLoop_some transport mr.toNat 0 text h
  · intro mr transport text hmr h0
    unfold get_source
    have h : mr.toNat = (mr.toNat - 1) + 1 := by omega
    rw [h, getSourceLoop_succ_response h0, if_pos (show (decide (200 < 400) && 200 == 200) = true from rfl)]

/-- Witness for C4: the always-raising transport exhausts the three
retries and yields no content. -/
theorem retry_exhaustion_spec_witness :
    get_source 3 (fun _ => TransportResult.exn) = (none, 3) :=
  retry_exhaustion_spec.1 (fun _ => TransportResult.exn) (fun _ => rfl)

/-- Claim C10 counterexample: a configured `max_retries = -1` is not
falsy, so preparation keeps it; it is not at least 1, and the fetch
loop then makes zero request attempts. -/
theorem max_retries_cex :
    prepare_max_retries (some (-1)) = -1 ∧
      (1 ≤ prepare_max_retries (some (-1))) = False ∧
      (get_source (prepare_max_retries (some (-1)))
          fun _ => TransportResult.exn).2 = 0 :=
  ⟨rfl, eq_false (by decide), rfl⟩

/-- Claim C10 (amended): preparation replaces a falsy configured
`max_retries` (absent or literal 0) with the default 1, so the prepared
value is never 0 and no configuration yields a prepared value of zero
attempts by being 0; for any non-negative configured value (or an
absent one) the prepared value is at least 1 and every fetch makes at
least one request attempt, while a negative configured value is kept
unchanged and makes the fetch loop run zero attempts. -/
theorem max_retries_amended :
    prepare_max_retries none = 1
    ∧ prepare_max_retries (some 0) = 1
    ∧ (∀ cfg : Option Int, prepare_max_retries cfg ≠ 0)
    ∧ (∀ v : Int, 0 ≤ v → 1 ≤ prepare_max_retries (some v))
    ∧ (∀ (cfg : Option Int) (transport : Nat → TransportResult),
        1 ≤ prepare_max_retries cfg →
        1 ≤ (get_source (prepare_max_retries cfg) transport).2)
    ∧ (∀ (v : Int) (transport : Nat → TransportResult), v < 0 →
        get_source (prepare_max_retries (some v)) transport = (none, 0)) := by
  refine ⟨rfl, rfl, ?_, ?_, ?_, ?_⟩
  · intro cfg
    cases cfg with
    | none => decide
    | some v =>
      simp only [prepare_max_retries]
      split
      · decide
      · assumption
  · intro v hv
    simp only [prepare_max_retries]
    split
    · decide
    · omega
  · intro cfg transport hmr
    exact get_source_attempts_pos _ hmr transport
  · intro v transport hv
    have hne : ¬(v = 0) := by omega
    simp only [prepare_max_retries, if_neg hne]
    exact get_source_nonpos v (by omega) transport

/-- Witness for C10 (amended): a configured value 5 survives
preparation at least 1 and the fetch against an always-raising
transport makes at least one attempt. -/
theorem max_retries_amended_witness :
    1 ≤ prepare_max_retries (some 5) ∧
      1 ≤ (get_source (prepare_max_retries (some 5))
        fun _ => TransportResult.exn).2 :=
  ⟨max_retries_amended.2.2.2.1 5 (by decide),
    max_retries_amended.2.2.2.2.1 (some 5) (fun _ => TransportResult.exn)
      (max_retries_amended.2.2.2.1 5 (by decide))⟩

/-! ## Lemmas about the pagination walker and the politeness delay -/

theorem extract_items_cons (i : String) (is : List String) :
    extract_items (i :: is) = Ev.itemFetch i :: Ev.delay :: extract_items is :=
  rfl

theorem pageParams_cons_page (p : Option Int) (l : List Ev) :
    pageParams (Ev.pageFetch p :: l) = p :: pageParams l := rfl

theorem pageParams_cons_item (u : String) (l : List Ev) :
    pageParams (Ev.itemFetch u :: l) = pageParams l := rfl

theorem pageParams_cons_delay (l : List Ev) :
    pageParams (Ev.delay :: l) = pageParams l := rfl

theorem pageParams_append (a b : List Ev) :
    pageParams (a ++ b) = pageParams a ++ pageParams b := by
  simp [pageParams, List.filterMap_append]

theorem pageParams_extract (items : List String) :
    pageParams (extract_items items) = [] := by
  induction items with
  | nil => rfl
  | cons i is ih =>
    rw [extract_items_cons, pageParams_cons_item, pageParams_cons_delay, ih]

theorem countDelays_cons_page (p : Option Int) (l : List Ev) :
    countDelays (Ev.pageFetch p :: l) = countDelays l := by
  simp [countDelays, List.countP_cons]

theorem countDelays_cons_item (u : String) (l : List Ev) :
    countDelays (Ev.itemFetch u :: l) = countDelays l := by
  simp [countDelays, List.countP_cons]

theorem countDelays_cons_delay (l : List Ev) :
    countDelays (Ev.delay :: l) = countDelays l + 1 := by
  simp [countDelays, List.countP_cons]

theorem countDelays_append (a b : List Ev) :
    countDelays (a ++ b) = countDelays a + countDelays b := by
  simp [countDelays, List.countP_append]

theorem countItemFetches_cons_page (p : Option Int) (l : List Ev) :
    countItemFetches (Ev.pageFetch p :: l) = countItemFetches l := by
  simp [countItemFetches, List.countP_cons]

theorem countItemFetches_cons_item (u : String) (l : List Ev) :
    countItemFetches (Ev.itemFetch u :: l) = countItemFetches l + 1 := by
  simp [countItemFetches, List.countP_cons]

theorem countItemFetches_cons_delay (l : List Ev) :
    countItemFetches (Ev.delay :: l) = countItemFetches l := by
  simp [countItemFetches, List.countP_cons]

theorem countItemFetches_append (a b : List Ev) :
    countItemFetches (a ++ b) = countItemFetches a + countItemFetches b := by
  simp [countItemFetches, List.countP_append]

theorem countDelays_extract (items : List String) :
    countDelays (extract_items items) = items.length := by
  induction items with
  | nil => rfl
  | cons i is ih =>
    rw [extract_items_cons, countDelays_cons_item, countDelays_cons_delay, ih,
      List.length_cons]

theorem countItemFetches_extract (items : List String) :
    countItemFetches (extract_items items) = items.length := by
  induction items with
  | nil => rfl
  | cons i is ih =>
    rw [extract_items_cons, countItemFetches_cons_item,
      countItemFetches_cons_delay, ih, List.length_cons]

theorem pageVisit_of_none {env : Option Int → Option PageDoc} {p : Int}
    (h : env (some p) = none) :
    pageVisit env p = [Ev.pageFetch (some p)] := by
  unfold pageVisit
  rw [h]

theorem pageVisit_of_some {env : Option Int → Option PageDoc} {p : Int}
    {d : PageDoc} (h : env (some p) = some d) :
    pageVisit env p = Ev.pageFetch (some p) :: extract_items d.items := by
  unfold pageVisit
  rw [h]

theorem pageParams_pageVisit (env : Option Int → Option PageDoc) (p : Int) :
    pageParams (pageVisit env p) = [some p] := by
  cases h : env (some p) with
  | none => rw [pageVisit_of_none h]; rfl
  | some d =>
    rw [pageVisit_of_some h, pageParams_cons_page, pageParams_extract]

theorem counts_pageVisit (env : Option Int → Option PageDoc) (p : Int) :
    countDelays (pageVisit env p) = countItemFetches (pageVisit env p) := by
  cases h : env (some p) with
  | none =>
    rw [pageVisit_of_none h, countDelays_cons_page, countItemFetches_cons_page]
    rfl
  | some d =>
    rw [pageVisit_of_some h, countDelays_cons_page, countItemFetches_cons_page,
      countDelays_extract, countItemFetches_extract]

theorem pageParams_flatMap (env : Option Int → Option PageDoc)
    (ps : List Int) :
    pageParams (ps.flatMap (pageVisit env)) = ps.map some := by
  induction ps with
  | nil => rfl
  | cons p ps ih =>
    rw [List.flatMap_cons, pageParams_append, pageParams_pageVisit, ih,
      List.map_cons]
    rfl

theorem counts_flatMap (env : Option Int → Option PageDoc) (ps : List Int) :
    countDelays (ps.flatMap (pageVisit env)) =
      countItemFetches (ps.flatMap (pageVisit env)) := by
  induction ps with
  | nil => rfl
  | cons p ps ih =>
    rw [List.flatMap_cons, countDelays_append, countItemFetches_append,
      counts_pageVisit, ih]

theorem get_items_of_none {env : Option Int → Option PageDoc}
    (h : env none = none) : get_items env = [Ev.pageFetch none] := by
  unfold get_items
  rw [h]

theorem get_items_of_some {env : Option Int → Option PageDoc} {d : PageDoc}
    (h : env none = some d) :
    get_items env = Ev.pageFetch none :: (extract_items d.items ++
      match d.nav with
      | .noNav => []
      | .unparseable => []
      | .lastPage n => (pagesFrom2 n).flatMap (pageVisit env)) := by
  unfold get_items
  rw [h]

theorem get_items_of_lastPage {env : Option Int → Option PageDoc}
    {d : PageDoc} {n : Int} (h : env none = some d)
    (hn : d.nav = NavResult.lastPage n) :
    get_items env = Ev.pageFetch none ::
      (extract_items d.items ++ (pagesFrom2 n).flatMap (pageVisit env)) := by
  rw [get_items_of_some h, hn]

theorem get_items_of_noNav {env : Option Int → Option PageDoc} {d : PageDoc}
    (h : env none = some d) (hn : d.nav = NavResult.noNav) :
    get_items env = Ev.pageFetch none :: (extract_items d.items ++ []) := by
  rw [get_items_of_some h, hn]

theorem get_items_of_unparseable {env : Option Int → Option PageDoc}
    {d : PageDoc} (h : env none = some d)
    (hn : d.nav = NavResult.unparseable) :
    get_items env = Ev.pageFetch none :: (extract_items d.items ++ []) := by
  rw [get_items_of_some h, hn]

theorem mem_pagesFrom2 (n p : Int) : p ∈ pagesFrom2 n ↔ 2 ≤ p ∧ p ≤ n := by
  constructor
  · intro hp
    obtain ⟨i, hi, hip⟩ := List.mem_map.mp hp
    rw [List.mem_range] at hi
    have hip' : (i : Int) + 2 = p := hip
    omega
  · intro hp
    refine List.mem_map.mpr ⟨(p - 2).toNat, ?_, ?_⟩
    · rw [List.mem_range]
      omega
    · show ((p - 2).toNat : Int) + 2 = p
      omega

theorem pagesFrom2_pairwise (n : Int) :
    (pagesFrom2 n).Pairwise fun a b => a < b := by
  unfold pagesFrom2
  refine (List.pairwise_lt_range _).map _ fun a b hab => ?_
  show (a : Int) + 2 < (b : Int) + 2
  omega

theorem counts_get_items (env : Option Int → Option PageDoc) :
    countDelays (get_items env) = countItemFetches (get_items env) := by
  cases h : env none with
  | none =>
    rw [get_items_of_none h, countDelays_cons_page, countItemFetches_cons_page]
    rfl
  | some d =>
    cases hn : d.nav with
    | noNav =>
      rw [get_items_of_noNav h hn, countDelays_cons_page,
        countItemFetches_cons_page, List.append_nil, countDelays_extract,
        countItemFetches_extract]
    | unparseable =>
      rw [get_items_of_unparseable h hn, countDelays_cons_page,
        countItemFetches_cons_page, List.append_nil, countDelays_extract,
        countItemFetches_extract]
    | lastPage n =>
      rw [get_items_of_lastPage h hn, countDelays_cons_page,
        countItemFetches_cons_page, countDelays_append,
        countItemFetches_append, countDelays_extract, countItemFetches_extract,
        counts_flatMap]

/-! ## Claim theorems about pagination and the politeness delay -/

/-- Claim C3: for a category whose first listing page is fetched
successfully and whose last-page indicator parses as the integer
`n ≥ 1`, the page fetches are exactly page 1 (no pagination parameter)
followed by pages 2..n with the `PAGEN_1` parameter, in increasing
order; with no navigation control, an unparseable indicator, or a last
page of 1, only page 1 is fetched and the walk ends without error. -/
theorem pagination_bound_spec :
    ∀ (env : Option Int → Option PageDoc) (doc : PageDoc),
      env none = some doc →
      (∀ n : Int, doc.nav = NavResult.lastPage n → 1 ≤ n →
          pageParams (get_items env) = none :: (pagesFrom2 n).map some ∧
            (∀ p : Int, p ∈ pagesFrom2 n ↔ 2 ≤ p ∧ p ≤ n) ∧
            (pagesFrom2 n).Pairwise (fun a b => a < b))
        ∧ (doc.nav = NavResult.noNav → pageParams (get_items env) = [none])
        ∧ (doc.nav = NavResult.unparseable →
            pageParams (get_items env) = [none])
        ∧ (doc.nav = NavResult.lastPage 1 →
            pageParams (get_items env) = [none]) := by
  intro env doc h
  refine ⟨?_, ?_, ?_, ?_⟩
  · intro n hn h1
    refine ⟨?_, mem_pagesFrom2 n, pagesFrom2_pairwise n⟩
    rw [get_items_of_lastPage h hn, pageParams_cons_page, pageParams_append,
      pageParams_extract, pageParams_flatMap]
    rfl
  · intro hn
    rw [get_items_of_noNav h hn, pageParams_cons_page, pageParams_append,
      pageParams_extract]
    rfl
  · intro hn
    rw [get_items_of_unparseable h hn, pageParams_cons_page,
      pageParams_append, pageParams_extract]
    rfl
  · intro hn
    rw [get_items_of_lastPage h hn, pageParams_cons_page, pageParams_append,
      pageParams_extract, pageParams_flatMap]
    rfl

def envC3 : Option Int → Option PageDoc
  | none => some { items := ["/item1/"], nav := NavResult.lastPage 3 }
  | some _ => none

/-- Witness for C3: a concrete environment whose first page reports a
last page of 3 fetches pages 1, 2 and 3 in order. -/
theorem pagination_bound_spec_witness :
    pageParams (get_items envC3) = none :: (pagesFrom2 3).map some :=
  ((pagination_bound_spec envC3
    { items := ["/item1/"], nav := NavResult.lastPage 3 } rfl).1 3 rfl
      (by decide)).1

/-- Claim C9: a configured literal zero disables the politeness delay
entirely; an absent option draws the delay from the default window
`[1, 3]` and a configured `[lo, hi]` draws it from that window (for any
draw function within the documented bounds of `random.uniform`); and in
a category walk the delay runs exactly once per item fetched — the
number of delays in the trace equals the number of item fetches, so no
delay is attached to a page or category fetch. -/
theorem politeness_delay_spec :
    (∀ draw : ℚ → ℚ → ℚ, make_delay DelayConfig.zero draw = none)
    ∧ (∀ draw : ℚ → ℚ → ℚ,
        (∀ a b : ℚ, a ≤ b → a ≤ draw a b ∧ draw a b ≤ b) →
        make_delay DelayConfig.absent draw = some (draw 1 3) ∧
          1 ≤ draw 1 3 ∧ draw 1 3 ≤ 3)
    ∧ (∀ (draw : ℚ → ℚ → ℚ) (lo hi : ℚ), lo ≤ hi →
        (∀ a b : ℚ, a ≤ b → a ≤ draw a b ∧ draw a b ≤ b) →
        make_delay (DelayConfig.range lo hi) draw = some (draw lo hi) ∧
          lo ≤ draw lo hi ∧ draw lo hi ≤ hi)
    ∧ (∀ env : Option Int → Option PageDoc,
        countDelays (get_items env) = countItemFetches (get_items env)) := by
  refine ⟨fun _ => rfl, ?_, ?_, counts_get_items⟩
  · intro draw hdraw
    exact ⟨rfl, hdraw 1 3 (by norm_num)⟩
  · intro draw lo hi hle hdraw
    exact ⟨rfl, hdraw lo hi hle⟩

def drawC9 : ℚ → ℚ → ℚ := fun a _ => a

/-- Witness for C9: the concrete draw function returning the lower
bound satisfies the uniform-draw contract, and the delay for the
configured window `[2, 5]` falls within it. -/
theorem politeness_delay_spec_witness :
    make_delay (DelayConfig.range 2 5) drawC9 = some (drawC9 2 5) ∧
      2 ≤ drawC9 2 5 ∧ drawC9 2 5 ≤ 5 :=
  politeness_delay_spec.2.2.1 drawC9 2 5 (by decide)
    fun a b h => ⟨le_refl a, h⟩

/-! ## Lemmas about the run supervisor -/

theorem runLoop_succ (throws : Nat → Bool) (s : ℚ) (t r : Nat) :
    runLoop throws s t (r + 1) =
      RunEv.attempt t ::
        if !(throws t) then []
        else if r = 0 then []
        else RunEv.sleep s :: runLoop throws s (t + 1) r := rfl

theorem runLoop_two (throws : Nat → Bool) (s : ℚ) (h1 : throws 1 = true)
    (h2 : throws 2 = true) :
    runLoop throws s 1 2 = [RunEv.attempt 1, RunEv.sleep s, RunEv.attempt 2] := by
  have e2 : runLoop throws s 1 2 = RunEv.attempt 1 ::
      (if !(throws 1) then []
       else if (1 : Nat) = 0 then []
       else RunEv.sleep s :: runLoop throws s 2 1) :=
    runLoop_succ throws s 1 1
  have e1 : runLoop throws s 2 1 = RunEv.attempt 2 ::
      (if !(throws 2) then []
       else if (0 : Nat) = 0 then []
       else RunEv.sleep s :: runLoop throws s 3 0) :=
    runLoop_succ throws s 2 0
  rw [e2, e1, h1, h2]
  simp

theorem runLoop_no_throw (throws : Nat → Bool) (s : ℚ) (t r : Nat)
    (h : throws t = false) :
    runLoop throws s t (r + 1) = [RunEv.attempt t] := by
  rw [runLoop_succ, h]
  rfl

/-! ## Claim theorems about the run supervisor -/

/-- Claim C5: with a restart count of 2 and a traversal that throws on
every attempt, the supervisor runs exactly the trace attempt 1, one
cooldown sleep of `interval_m * 60` seconds, attempt 2, and stops
(the function is total, so nothing is raised); and whenever the first
attempt completes without error, the trace is just that attempt — no
further attempts and no sleeps. -/
theorem run_retry_bound_spec :
    (∀ (throws : Nat → Bool) (m : ℚ), throws 1 = true → throws 2 = true →
        start_parser_run throws 2 m =
          [RunEv.attempt 1, RunEv.sleep (m * 60), RunEv.attempt 2])
    ∧ (∀ (throws : Nat → Bool) (restartCount : Nat) (m : ℚ),
        1 ≤ restartCount → throws 1 = false →
        start_parser_run throws restartCount m = [RunEv.attempt 1]) := by
  constructor
  · intro throws m h1 h2
    exact runLoop_two throws (m * 60) h1 h2
  · intro throws rc m hrc h1
    obtain ⟨r, rfl⟩ : ∃ r, rc = r + 1 := ⟨rc - 1, by omega⟩
    exact runLoop_no_throw throws (m * 60) 1 r h1

/-- Witness for C5: an always-throwing traversal with restart count 2
and a 1-minute cooldown produces two attempts around one 60-second
sleep. -/
theorem run_retry_bound_spec_witness :
    start_parser_run (fun _ => true) 2 1 =
      [RunEv.attempt 1, RunEv.sleep (1 * 60), RunEv.attempt 2] :=
  run_retry_bound_spec.1 (fun _ => true) 1 rfl rfl

/-! ## Lemmas about category discovery and traversal -/

theorem truthy_eq_decide (o : Option String) :
    truthy o = decide (o ≠ none ∧ o ≠ some "") := by
  cases o with
  | none => rfl
  | some s =>
    by_cases hs : s = ""
    · subst hs
      rfl
    · have hse : s.isEmpty = false := by
        cases hemp : s.isEmpty with
        | false => rfl
        | true => exact absurd ((String.isEmpty_iff s).mp hemp) hs
      simp [truthy, hse, hs]

theorem start_parser_discovery_of_some {source : Option (List MainCatNode)}
    {cats : List Cat} (h : parse_cats source = some cats) :
    start_parser_discovery source =
      Except.ok ((cats.filter fun c => truthy c.parent_id).map fun c =>
        domain ++ c.link) := by
  unfold start_parser_discovery
  rw [h]

/-! ## Claim theorems about category discovery and traversal -/

/-- Claim C1 counterexample: when the fetch of the root document fails,
the category traversal does not return normally with zero categories
visited — `start_parser_discovery none` is not `Except.ok []`. -/
theorem discovery_failure_not_graceful :
    (start_parser_discovery none = Except.ok []) = False :=
  eq_false fun h => Except.noConfusion h

/-- Claim C1 (amended): when discovery obtains no source, `parse_cats`
logs a warning and returns `None`; `_start_parser` then iterates that
`None` and raises `TypeError`, which propagates to the Run Supervisor
as a run-fatal error subject to its restart policy, with zero
categories visited. -/
theorem discovery_failure_is_typeError :
    parse_cats none = none ∧
      start_parser_discovery none = Except.error PyError.typeError :=
  ⟨rfl, rfl⟩

def menuC8 : List MainCatNode :=
  [{ name := "Main", link := "/catalog//",
     subs := [{ name := "Sub", link := "/catalog/1/sub/" }] }]

/-- Claim C8 counterexample: discovery on the degenerate main link
`"/catalog//"` yields a sub-category whose `parent_id` is `some ""` —
non-null — yet the traversal visits no category at all, so traversal
does not visit every discovered category with a non-null `parent_id`. -/
theorem root_exclusion_cex :
    start_parser_discovery (some menuC8) = Except.ok [] ∧
      ((parse_cats (some menuC8)).getD []).filter
          (fun c => decide (c.parent_id ≠ none)) =
        [{ name := "Sub", id := "1/sub", parent_id := some "",
           link := "/catalog/1/sub/" }] ∧
      (start_parser_discovery (some menuC8) =
        Except.ok (((((parse_cats (some menuC8)).getD []).filter
          fun c => decide (c.parent_id ≠ none)).map fun c =>
            domain ++ c.link))) = False := by
  refine ⟨rfl, by decide, eq_false ?_⟩
  intro h
  injection h with h'
  exact absurd h' (by decide)

/-- Claim C8 (amended): in discovery mode the traversal visits exactly
the discovered categories whose `parent_id` is truthy — non-null and
non-empty — and in particular never a root category. -/
theorem root_exclusion_amended :
    ∀ (menu : List MainCatNode) (cats : List Cat),
      parse_cats (some menu) = some cats →
      start_parser_discovery (some menu) =
          Except.ok (((cats.filter fun c =>
            decide (c.parent_id ≠ none ∧ c.parent_id ≠ some "")).map fun c =>
              domain ++ c.link))
        ∧ ∀ c ∈ cats.filter fun c => truthy c.parent_id,
            c.parent_id ≠ none := by
  intro menu cats h
  constructor
  · rw [start_parser_discovery_of_some h,
      List.filter_congr fun c _ => truthy_eq_decide c.parent_id]
  · intro c hc
    rw [List.mem_filter] at hc
    intro hnone
    rw [hnone] at hc
    simpa [truthy] using hc.2

def menuC8W : List MainCatNode :=
  [{ name := "Dogs", link := "/catalog/dogs/",
     subs := [{ name := "Food", link := "/catalog/dogs/food/" }] }]

def catsC8W : List Cat :=
  [{ name := "Dogs", id := "dogs", parent_id := none,
     link := "/catalog/dogs/" },
   { name := "Food", id := "dogs/food", parent_id := some "dogs",
     link := "/catalog/dogs/food/" }]

/-- Witness for C8 (amended): on a concrete two-level menu the
traversal visits exactly the sub-category, whose parent id is the
non-empty string extracted from the main category link. -/
theorem root_exclusion_amended_witness :
    start_parser_discovery (some menuC8W) =
      Except.ok (((catsC8W.filter fun c =>
        decide (c.parent_id ≠ none ∧ c.parent_id ≠ some "")).map fun c =>
          domain ++ c.link)) :=
  (root_exclusion_amended menuC8W catsC8W rfl).1

end Zootovary
